import Mathlib

/-!
Verification of the `jenga` middleware library (Rust sources under `src/`):
a `Service` abstraction together with the four middlewares `RateLimit`
(`src/rate_limit.rs`), `Timeout` (`src/timeout.rs`), `Retry` (`src/retry.rs`)
and `Restart` (`src/restart.rs`).

The Rust code is shallowly embedded:
* durations and instants are natural numbers;
* an inner service's behaviour is an explicit oracle (a function giving the
  outcome of each call), since the wrapped service is an opaque collaborator;
* the concurrent parts (the `AtomicUsize` in-flight counter of `RateLimit`,
  the `tokio::sync::Mutex` of `Restart`) are embedded as labelled transition
  systems whose atomic steps are exactly the atomic operations of the source
  (`fetch_update`, `fetch_sub`, lock acquisition/release), and reachability is
  `Relation.ReflTransGen` from the initial state.
-/

/-! ## Error types (one discriminated union per middleware) -/

/-- `RateLimitError` from `src/rate_limit.rs`: `ServiceError(E)` | `RateLimited`. -/
inductive RateLimitError (ε : Type) where
  | ServiceError (e : ε)
  | RateLimited
deriving DecidableEq

/-- `TimeoutError` from `src/timeout.rs`: `ServiceError(E)` | `TimeoutError`. -/
inductive TimeoutError (ε : Type) where
  | ServiceError (e : ε)
  | TimeoutError
deriving DecidableEq

/-- `RestartError` from `src/restart.rs`:
`ServiceError(SE)` | `RestartingFailed(GE, SE)`. -/
inductive RestartError (σε γε : Type) where
  | ServiceError (e : σε)
  | RestartingFailed (ge : γε) (se : σε)
deriving DecidableEq

/-! ## RateLimit: one call, sequential view

`RateLimit::request` (src/rate_limit.rs, lines 39-58) first runs
`current.fetch_update(|v| if v >= LIMIT { None } else { Some(v + 1) })`.
If the update is rejected it returns `Err(RateLimited)` at once.  Otherwise it
awaits `inner.request(msg.clone())`, runs `current.fetch_sub(1)` and returns
the inner outcome with errors wrapped in `ServiceError`.

`RateLimitCall` records, for one call observed in isolation, the returned
result, the counter after the call, and how many times the inner service was
invoked; `current` is the counter value the `fetch_update` closure sees. -/
structure RateLimitCall (ε ρ : Type) where
  result : Except (RateLimitError ε) ρ
  counterAfter : Nat
  innerInvocations : Nat

/-- Embedding of `RateLimit::request` (src/rate_limit.rs, lines 39-58) for one
call: `LIMIT` is the const generic, `current` the counter value read by
`fetch_update`, `inner` the outcome the inner service would produce. -/
def RateLimit.request (LIMIT current : Nat) (inner : Except ε ρ) :
    RateLimitCall ε ρ :=
  if current ≥ LIMIT then
    { result := .error .RateLimited
      counterAfter := current
      innerInvocations := 0 }
  else
    { result :=
        match inner with
        | .ok v => .ok v
        | .error e => .error (.ServiceError e)
      counterAfter := current + 1 - 1
      innerInvocations := 1 }

/-! ## Timeout

`Timeout::request` (src/timeout.rs, lines 37-42) races the inner future
against `tokio::time::timeout(self.timeout_duration, ...)`.  The race is
embedded by comparing the inner call's completion time with the configured
duration: the inner result is forwarded when the inner call completes within
the duration, and `TimeoutError` is returned when the timer fires first. -/
def Timeout.request (timeout_duration innerTime : Nat) (inner : Except ε ρ) :
    Except (TimeoutError ε) ρ :=
  if innerTime ≤ timeout_duration then
    match inner with
    | .ok v => .ok v
    | .error e => .error (.ServiceError e)
  else
    .error .TimeoutError

/-! ## Claim theorems: C2 and C5 -/

/-- C2. For every call to `RateLimit::request`: if the atomic
compare-and-increment is rejected (counter at or above `LIMIT`), the call
returns `RateLimited` and the inner service is never invoked; if the call is
admitted, the inner service is invoked exactly once, a successful inner
response is returned unchanged, and an inner error `e` is returned as
`ServiceError e`. -/
theorem c2_rate_limit_request_spec (LIMIT current : Nat) (inner : Except ε ρ) :
    (current ≥ LIMIT →
      (RateLimit.request LIMIT current inner).result = .error .RateLimited ∧
      (RateLimit.request LIMIT current inner).innerInvocations = 0) ∧
    (current < LIMIT →
      (RateLimit.request LIMIT current inner).innerInvocations = 1 ∧
      (∀ v, inner = .ok v →
        (RateLimit.request LIMIT current inner).result = .ok v) ∧
      (∀ e, inner = .error e →
        (RateLimit.request LIMIT current inner).result =
          .error (.ServiceError e))) := by
  constructor
  · intro h
    simp [RateLimit.request, h]
  · intro h
    have h' : ¬ current ≥ LIMIT := Nat.not_le.mpr h
    refine ⟨by simp [RateLimit.request, h'], ?_, ?_⟩
    · intro v hv
      simp [RateLimit.request, h', hv]
    · intro e he
      simp [RateLimit.request, h', he]

/-- Witness for C2 at `LIMIT = 2`: a rejected call at `current = 2` and an
admitted call at `current = 0` with a concrete inner error. -/
theorem c2_rate_limit_request_spec_witness :
    (RateLimit.request 2 2 (.ok 7 : Except String Nat)).result =
        .error .RateLimited ∧
    (RateLimit.request 2 0 (.error "boom" : Except String Nat)).result =
        .error (.ServiceError "boom") :=
  ⟨((c2_rate_limit_request_spec 2 2 (.ok 7)).1 (by decide)).1,
   ((c2_rate_limit_request_spec 2 0 (.error "boom")).2 (by decide)).2.2 "boom" rfl⟩

/-- C5. For every call to `Timeout::request` with configured duration `D`:
if the inner call completes within `D`, its result is forwarded (success
unchanged, inner error `e` as `ServiceError e`); if the timer fires first, the
call returns `TimeoutError` regardless of the inner outcome. -/
theorem c5_timeout_request_spec (D t : Nat) (inner : Except ε ρ) :
    (t ≤ D → ∀ v, inner = .ok v → Timeout.request D t inner = .ok v) ∧
    (t ≤ D → ∀ e, inner = .error e →
      Timeout.request D t inner = .error (.ServiceError e)) ∧
    (D < t → Timeout.request D t inner = .error .TimeoutError) := by
  refine ⟨?_, ?_, ?_⟩
  · intro h v hv
    simp [Timeout.request, h, hv]
  · intro h e he
    simp [Timeout.request, h, he]
  · intro h
    have h' : ¬ t ≤ D := Nat.not_le.mpr h
    simp [Timeout.request, h']

/-- Witness for C5 with duration 15 (the spec's example): an inner call
finishing at 10 is forwarded, one finishing at 18 times out even though it
would have failed. -/
theorem c5_timeout_request_spec_witness :
    Timeout.request 15 10 (.ok 20 : Except String Nat) = .ok 20 ∧
    Timeout.request 15 18 (.error "inner" : Except String Nat) =
      .error .TimeoutError :=
  ⟨(c5_timeout_request_spec 15 10 (.ok 20)).1 (by decide) 20 rfl,
   (c5_timeout_request_spec 15 18 (.error "inner")).2.2 (by decide)⟩

/-! ## Retry

`Retry<RETRY_COUNT, R, T>` (src/retry.rs) stores the inner service and, with
the `retry_wait` feature, a `duration`; `Retry::instant` sets it to
`Duration::ZERO` and `Retry::with_wait` to the given duration.  The model
always carries the duration (the feature enabled), as a number of time units.
-/

/-- The `Retry` struct of src/retry.rs (with the `retry_wait` feature):
inner service plus inter-attempt `duration`; `R` is the phantom request
type. -/
structure Retry (RETRY_COUNT : Nat) (R : Type) (S : Type) where
  inner : S
  duration : Nat

/-- `Retry::instant` (src/retry.rs, lines 21-28): duration `Duration::ZERO`. -/
def Retry.instant (RETRY_COUNT : Nat) (R : Type) {S : Type} (service : S) :
    Retry RETRY_COUNT R S :=
  { inner := service, duration := 0 }

/-- `Retry::with_wait` (src/retry.rs): the given inter-attempt duration. -/
def Retry.with_wait (RETRY_COUNT : Nat) (R : Type) {S : Type} (service : S)
    (duration : Nat) : Retry RETRY_COUNT R S :=
  { inner := service, duration := duration }

/-- One observable event of a `Retry::request` execution: an inner attempt
(with the request value passed and the outcome), or a `sleep` of the given
duration. -/
inductive RetryEvent (R ρ ε : Type) where
  | attempt (req : R) (outcome : Except ε ρ)
  | sleep (duration : Nat)

/-- Whether an event is an inner attempt. -/
def RetryEvent.isAttempt {R ρ ε : Type} : RetryEvent R ρ ε → Bool
  | .attempt _ _ => true
  | .sleep _ => false

/-- Number of inner attempts in a trace. -/
def attemptsCount {R ρ ε : Type} (evs : List (RetryEvent R ρ ε)) : Nat :=
  evs.countP RetryEvent.isAttempt

/-- Number of sleeps in a trace. -/
def sleepsCount {R ρ ε : Type} (evs : List (RetryEvent R ρ ε)) : Nat :=
  evs.countP fun e => ! e.isAttempt

/-- Total time slept in a trace. -/
def totalSleep {R ρ ε : Type} : List (RetryEvent R ρ ε) → Nat
  | [] => 0
  | .attempt _ _ :: rest => totalSleep rest
  | .sleep d :: rest => d + totalSleep rest

/-- The first event of a trace is an inner attempt. -/
def startsWithAttempt {R ρ ε : Type} : List (RetryEvent R ρ ε) → Bool
  | [] => false
  | e :: _ => e.isAttempt

/-- The last event of a trace is an inner attempt. -/
def endsWithAttempt {R ρ ε : Type} : List (RetryEvent R ρ ε) → Bool
  | [] => false
  | [e] => e.isAttempt
  | _ :: rest => endsWithAttempt rest

/-- The loop of `Retry::request` (src/retry.rs, lines 40-65).  The inner
service is an oracle `inner` giving the outcome of its `i`-th invocation on a
request; each iteration calls `inner.request(msg.clone())`, i.e. passes the
original `msg`.  On success it returns at once; on failure with
`retries_left == 0` it returns the error; otherwise it decrements
`retries_left`, sleeps for the configured duration `d` and continues.  The
returned trace lists the events in order. -/
def Retry.go {R ρ ε : Type} (inner : Nat → R → Except ε ρ) (msg : R) (d : Nat) :
    Nat → Nat → Except ε ρ × List (RetryEvent R ρ ε)
  | 0, i =>
    match inner i msg with
    | .ok v => (.ok v, [.attempt msg (.ok v)])
    | .error e => (.error e, [.attempt msg (.error e)])
  | n + 1, i =>
    match inner i msg with
    | .ok v => (.ok v, [.attempt msg (.ok v)])
    | .error e =>
      let rest := Retry.go inner msg d n (i + 1)
      (rest.1, .attempt msg (.error e) :: .sleep d :: rest.2)

/-- `Retry::request`: run the loop with `retries_left = RETRY_COUNT`,
counting inner invocations from 0. -/
def Retry.request {R ρ ε : Type} (RETRY_COUNT : Nat)
    (inner : Nat → R → Except ε ρ) (msg : R) (d : Nat) :
    Except ε ρ × List (RetryEvent R ρ ε) :=
  Retry.go inner msg d RETRY_COUNT 0

/-- Every attempt in a `Retry::request` trace passes (a clone of) the original
request. -/
theorem Retry.go_attempt_req {R ρ ε : Type} (inner : Nat → R → Except ε ρ)
    (msg : R) (d : Nat) :
    ∀ n i r o, RetryEvent.attempt r o ∈ (Retry.go inner msg d n i).2 →
      r = msg := by
  intro n
  induction n with
  | zero =>
    intro i r o h
    cases hinner : inner i msg with
    | ok v => simp [Retry.go, hinner] at h; exact h.1
    | error e => simp [Retry.go, hinner] at h; exact h.1
  | succ n ih =>
    intro i r o h
    cases hinner : inner i msg with
    | ok v => simp [Retry.go, hinner] at h; exact h.1
    | error e =>
      simp [Retry.go, hinner] at h
      rcases h with h | h
      · exact h.1
      · exact ih (i + 1) r o h

/-- Every sleep in a `Retry::request` trace has the configured duration. -/
theorem Retry.go_sleep_dur {R ρ ε : Type} (inner : Nat → R → Except ε ρ)
    (msg : R) (d : Nat) :
    ∀ n i dd, RetryEvent.sleep dd ∈ (Retry.go inner msg d n i).2 →
      dd = d := by
  intro n
  induction n with
  | zero =>
    intro i dd h
    cases hinner : inner i msg with
    | ok v => simp [Retry.go, hinner] at h
    | error e => simp [Retry.go, hinner] at h
  | succ n ih =>
    intro i dd h
    cases hinner : inner i msg with
    | ok v => simp [Retry.go, hinner] at h
    | error e =>
      simp [Retry.go, hinner] at h
      rcases h with h | h
      · exact h
      · exact ih (i + 1) dd h

/-- Counting attempts: an attempt at the head adds one. -/
theorem attemptsCount_cons_attempt {R ρ ε : Type} (r : R) (o : Except ε ρ)
    (evs : List (RetryEvent R ρ ε)) :
    attemptsCount (.attempt r o :: evs) = attemptsCount evs + 1 := by
  simp [attemptsCount, List.countP_cons, RetryEvent.isAttempt]

/-- Counting attempts: a sleep at the head adds nothing. -/
theorem attemptsCount_cons_sleep {R ρ ε : Type} (dd : Nat)
    (evs : List (RetryEvent R ρ ε)) :
    attemptsCount (RetryEvent.sleep dd :: evs) = attemptsCount evs := by
  simp [attemptsCount, List.countP_cons, RetryEvent.isAttempt]

/-- Counting sleeps: an attempt at the head adds nothing. -/
theorem sleepsCount_cons_attempt {R ρ ε : Type} (r : R) (o : Except ε ρ)
    (evs : List (RetryEvent R ρ ε)) :
    sleepsCount (.attempt r o :: evs) = sleepsCount evs := by
  simp [sleepsCount, List.countP_cons, RetryEvent.isAttempt]

/-- Counting sleeps: a sleep at the head adds one. -/
theorem sleepsCount_cons_sleep {R ρ ε : Type} (dd : Nat)
    (evs : List (RetryEvent R ρ ε)) :
    sleepsCount (RetryEvent.sleep dd :: evs) = sleepsCount evs + 1 := by
  simp [sleepsCount, List.countP_cons, RetryEvent.isAttempt]

/-- Attempt and sleep counts of a `Retry::request` trace: at least one and at
most `retries_left + 1` attempts, and exactly one sleep strictly between each
pair of consecutive attempts. -/
theorem Retry.go_counts {R ρ ε : Type} (inner : Nat → R → Except ε ρ)
    (msg : R) (d : Nat) :
    ∀ n i,
      1 ≤ attemptsCount (Retry.go inner msg d n i).2 ∧
      attemptsCount (Retry.go inner msg d n i).2 ≤ n + 1 ∧
      sleepsCount (Retry.go inner msg d n i).2 =
        attemptsCount (Retry.go inner msg d n i).2 - 1 := by
  intro n
  induction n with
  | zero =>
    intro i
    cases hinner : inner i msg with
    | ok v =>
      have hgo : (Retry.go inner msg d 0 i).2 = [.attempt msg (.ok v)] := by
        simp [Retry.go, hinner]
      rw [hgo, attemptsCount_cons_attempt, sleepsCount_cons_attempt]
      simp [attemptsCount, sleepsCount]
    | error e =>
      have hgo : (Retry.go inner msg d 0 i).2 = [.attempt msg (.error e)] := by
        simp [Retry.go, hinner]
      rw [hgo, attemptsCount_cons_attempt, sleepsCount_cons_attempt]
      simp [attemptsCount, sleepsCount]
  | succ n ih =>
    intro i
    cases hinner : inner i msg with
    | ok v =>
      have hgo : (Retry.go inner msg d (n + 1) i).2 = [.attempt msg (.ok v)] := by
        simp [Retry.go, hinner]
      rw [hgo, attemptsCount_cons_attempt, sleepsCount_cons_attempt]
      simp [attemptsCount, sleepsCount]
    | error e =>
      obtain ⟨h1, h2, h3⟩ := ih (i + 1)
      have hgo : (Retry.go inner msg d (n + 1) i).2 =
          .attempt msg (.error e) :: .sleep d ::
            (Retry.go inner msg d n (i + 1)).2 := by
        simp [Retry.go, hinner]
      rw [hgo, attemptsCount_cons_attempt, attemptsCount_cons_sleep,
        sleepsCount_cons_attempt, sleepsCount_cons_sleep]
      omega

/-- A `Retry::request` trace begins with an inner attempt (no sleep before the
first attempt). -/
theorem Retry.go_startsWithAttempt {R ρ ε : Type} (inner : Nat → R → Except ε ρ)
    (msg : R) (d : Nat) :
    ∀ n i, startsWithAttempt (Retry.go inner msg d n i).2 = true := by
  intro n
  cases n with
  | zero =>
    intro i
    cases hinner : inner i msg with
    | ok v => simp [Retry.go, hinner, startsWithAttempt, RetryEvent.isAttempt]
    | error e => simp [Retry.go, hinner, startsWithAttempt, RetryEvent.isAttempt]
  | succ n =>
    intro i
    cases hinner : inner i msg with
    | ok v => simp [Retry.go, hinner, startsWithAttempt, RetryEvent.isAttempt]
    | error e => simp [Retry.go, hinner, startsWithAttempt, RetryEvent.isAttempt]

/-- A `Retry::request` trace ends with an inner attempt (no sleep after the
final attempt). -/
theorem Retry.go_endsWithAttempt {R ρ ε : Type} (inner : Nat → R → Except ε ρ)
    (msg : R) (d : Nat) :
    ∀ n i, endsWithAttempt (Retry.go inner msg d n i).2 = true := by
  intro n
  induction n with
  | zero =>
    intro i
    cases hinner : inner i msg with
    | ok v => simp [Retry.go, hinner, endsWithAttempt, RetryEvent.isAttempt]
    | error e => simp [Retry.go, hinner, endsWithAttempt, RetryEvent.isAttempt]
  | succ n ih =>
    intro i
    cases hinner : inner i msg with
    | ok v => simp [Retry.go, hinner, endsWithAttempt, RetryEvent.isAttempt]
    | error e =>
      have hne : (Retry.go inner msg d n (i + 1)).2 ≠ [] := by
        intro hnil
        have := (Retry.go_counts inner msg d n (i + 1)).1
        rw [hnil] at this
        simp [attemptsCount] at this
      cases hrest : (Retry.go inner msg d n (i + 1)).2 with
      | nil => exact absurd hrest hne
      | cons x xs =>
        have := ih (i + 1)
        rw [hrest] at this
        simp [Retry.go, hinner, endsWithAttempt, hrest]
        simpa [endsWithAttempt] using this

/-- Total sleep time of a `Retry::request` trace is the number of sleeps times
the configured duration. -/
theorem Retry.go_totalSleep {R ρ ε : Type} (inner : Nat → R → Except ε ρ)
    (msg : R) (d : Nat) :
    ∀ n i, totalSleep (Retry.go inner msg d n i).2 =
      sleepsCount (Retry.go inner msg d n i).2 * d := by
  intro n
  induction n with
  | zero =>
    intro i
    cases hinner : inner i msg with
    | ok v =>
      simp [Retry.go, hinner, totalSleep, sleepsCount, List.countP_cons,
        RetryEvent.isAttempt]
    | error e =>
      simp [Retry.go, hinner, totalSleep, sleepsCount, List.countP_cons,
        RetryEvent.isAttempt]
  | succ n ih =>
    intro i
    cases hinner : inner i msg with
    | ok v =>
      simp [Retry.go, hinner, totalSleep, sleepsCount, List.countP_cons,
        RetryEvent.isAttempt]
    | error e =>
      have := ih (i + 1)
      simp only [Retry.go, hinner, totalSleep, sleepsCount, List.countP_cons,
        RetryEvent.isAttempt] at this ⊢
      simp [this]
      ring

/-- When the inner service fails on every remaining attempt, the loop returns
the most recent inner error (the outcome of the last attempt) unchanged, after
`retries_left + 1` attempts. -/
theorem Retry.go_all_fail {R ρ ε : Type} (inner : Nat → R → Except ε ρ)
    (msg : R) (d : Nat) :
    ∀ n i, (∀ j, j ≤ n → ∃ e, inner (i + j) msg = .error e) →
      (Retry.go inner msg d n i).1 = inner (i + n) msg ∧
      attemptsCount (Retry.go inner msg d n i).2 = n + 1 := by
  intro n
  induction n with
  | zero =>
    intro i h
    obtain ⟨e, he⟩ := h 0 (Nat.le_refl 0)
    rw [Nat.add_zero] at he
    have hgo : Retry.go inner msg d 0 i =
        (.error e, [.attempt msg (.error e)]) := by
      simp [Retry.go, he]
    rw [Nat.add_zero, hgo, he]
    refine ⟨rfl, ?_⟩
    rw [attemptsCount_cons_attempt]
    simp [attemptsCount]
  | succ n ih =>
    intro i h
    obtain ⟨e, he⟩ := h 0 (Nat.zero_le _)
    rw [Nat.add_zero] at he
    have h' : ∀ j, j ≤ n → ∃ e, inner (i + 1 + j) msg = .error e := by
      intro j hj
      have hj' := h (j + 1) (Nat.succ_le_succ hj)
      have : i + (j + 1) = i + 1 + j := by omega
      rwa [this] at hj'
    obtain ⟨ih1, ih2⟩ := ih (i + 1) h'
    have hgo : Retry.go inner msg d (n + 1) i =
        ((Retry.go inner msg d n (i + 1)).1,
          .attempt msg (.error e) :: .sleep d ::
            (Retry.go inner msg d n (i + 1)).2) := by
      simp [Retry.go, he]
    constructor
    · rw [hgo, ih1]
      have : i + 1 + n = i + (n + 1) := by omega
      rw [this]
    · rw [hgo]
      simp only [attemptsCount_cons_attempt, attemptsCount_cons_sleep]
      omega

/-- When the `k`-th attempt (counting from 0) is the first to succeed, the
loop returns its response immediately, after exactly `k + 1` attempts. -/
theorem Retry.go_first_success {R ρ ε : Type} (inner : Nat → R → Except ε ρ)
    (msg : R) (d : Nat) :
    ∀ n i k v, k ≤ n → inner (i + k) msg = .ok v →
      (∀ j, j < k → ∃ e, inner (i + j) msg = .error e) →
      (Retry.go inner msg d n i).1 = .ok v ∧
      attemptsCount (Retry.go inner msg d n i).2 = k + 1 := by
  intro n
  induction n with
  | zero =>
    intro i k v hk hsucc hfail
    have hk0 : k = 0 := Nat.le_zero.mp hk
    subst hk0
    rw [Nat.add_zero] at hsucc
    have hgo : Retry.go inner msg d 0 i = (.ok v, [.attempt msg (.ok v)]) := by
      simp [Retry.go, hsucc]
    rw [hgo]
    refine ⟨rfl, ?_⟩
    rw [attemptsCount_cons_attempt]
    simp [attemptsCount]
  | succ n ih =>
    intro i k v hk hsucc hfail
    cases k with
    | zero =>
      rw [Nat.add_zero] at hsucc
      have hgo : Retry.go inner msg d (n + 1) i =
          (.ok v, [.attempt msg (.ok v)]) := by
        simp [Retry.go, hsucc]
      rw [hgo]
      refine ⟨rfl, ?_⟩
      rw [attemptsCount_cons_attempt]
      simp [attemptsCount]
    | succ k =>
      obtain ⟨e, he⟩ := hfail 0 (Nat.succ_pos k)
      rw [Nat.add_zero] at he
      have hk' : k ≤ n := Nat.succ_le_succ_iff.mp hk
      have hsucc' : inner (i + 1 + k) msg = .ok v := by
        have : i + 1 + k = i + (k + 1) := by omega
        rwa [this]
      have hfail' : ∀ j, j < k → ∃ e, inner (i + 1 + j) msg = .error e := by
        intro j hj
        have hj' := hfail (j + 1) (Nat.succ_lt_succ hj)
        have : i + (j + 1) = i + 1 + j := by omega
        rwa [this] at hj'
      obtain ⟨ih1, ih2⟩ := ih (i + 1) k v hk' hsucc' hfail'
      have hgo : Retry.go inner msg d (n + 1) i =
          ((Retry.go inner msg d n (i + 1)).1,
            .attempt msg (.error e) :: .sleep d ::
              (Retry.go inner msg d n (i + 1)).2) := by
        simp [Retry.go, he]
      constructor
      · rw [hgo]
        exact ih1
      · rw [hgo]
        simp only [attemptsCount_cons_attempt, attemptsCount_cons_sleep]
        omega

/-- C4. `Retry::request` makes between 1 and `RETRY_COUNT + 1` inner attempts,
each passing (a clone of) the original request; it returns the response of the
first successful attempt immediately, and when every attempt fails it returns
the most recent inner error unchanged (the result lives in the inner service's
own error type). -/
theorem c4_retry_request_spec {R ρ ε : Type} (N : Nat)
    (inner : Nat → R → Except ε ρ) (msg : R) (d : Nat) :
    (1 ≤ attemptsCount (Retry.request N inner msg d).2 ∧
      attemptsCount (Retry.request N inner msg d).2 ≤ N + 1) ∧
    (∀ r o, RetryEvent.attempt r o ∈ (Retry.request N inner msg d).2 →
      r = msg) ∧
    ((∀ j, j ≤ N → ∃ e, inner j msg = .error e) →
      (Retry.request N inner msg d).1 = inner N msg ∧
      attemptsCount (Retry.request N inner msg d).2 = N + 1) ∧
    (∀ k v, k ≤ N → inner k msg = .ok v →
      (∀ j, j < k → ∃ e, inner j msg = .error e) →
      (Retry.request N inner msg d).1 = .ok v ∧
      attemptsCount (Retry.request N inner msg d).2 = k + 1) := by
  refine ⟨⟨?_, ?_⟩, ?_, ?_, ?_⟩
  · exact (Retry.go_counts inner msg d N 0).1
  · exact (Retry.go_counts inner msg d N 0).2.1
  · intro r o h
    exact Retry.go_attempt_req inner msg d N 0 r o h
  · intro h
    have h' : ∀ j, j ≤ N → ∃ e, inner (0 + j) msg = .error e := by
      intro j hj
      simpa [Nat.zero_add] using h j hj
    have := Retry.go_all_fail inner msg d N 0 h'
    rwa [Nat.zero_add] at this
  · intro k v hk hsucc hfail
    have hsucc' : inner (0 + k) msg = .ok v := by rwa [Nat.zero_add]
    have hfail' : ∀ j, j < k → ∃ e, inner (0 + j) msg = .error e := by
      intro j hj
      simpa [Nat.zero_add] using hfail j hj
    exact Retry.go_first_success inner msg d N 0 k v hk hsucc' hfail'

/-- Witness for C4: `Retry<3>` around a service failing its first two calls
then succeeding returns the first success after exactly 3 attempts. -/
theorem c4_retry_request_spec_witness :
    (Retry.request 3 (fun i (_ : Unit) =>
        if i < 2 then (.error "fail" : Except String Nat) else .ok i) () 0).1 =
      .ok 2 ∧
    attemptsCount (Retry.request 3 (fun i (_ : Unit) =>
        if i < 2 then (.error "fail" : Except String Nat) else .ok i) () 0).2 =
      3 :=
  (c4_retry_request_spec 3
      (fun i (_ : Unit) =>
        if i < 2 then (.error "fail" : Except String Nat) else .ok i) () 0).2.2.2
    2 2 (by decide) rfl
    (fun j hj => ⟨"fail", by interval_cases j <;> rfl⟩)

/-- C10. Retry's inter-attempt delay is inserted only strictly between two
consecutive attempts: there is one sleep fewer than attempts (so at most
`RETRY_COUNT` sleeps per call), the trace begins and ends with an attempt (no
sleep before the first attempt or after the final one), every sleep has the
configured duration, and `Retry::instant` configures duration zero, so such a
`Retry` accumulates no waiting at all. -/
theorem c10_retry_sleep_placement {R ρ ε : Type} (N : Nat)
    (inner : Nat → R → Except ε ρ) (msg : R) (d : Nat) {S : Type}
    (service : S) :
    sleepsCount (Retry.request N inner msg d).2 =
      attemptsCount (Retry.request N inner msg d).2 - 1 ∧
    sleepsCount (Retry.request N inner msg d).2 ≤ N ∧
    startsWithAttempt (Retry.request N inner msg d).2 = true ∧
    endsWithAttempt (Retry.request N inner msg d).2 = true ∧
    (∀ dd, RetryEvent.sleep dd ∈ (Retry.request N inner msg d).2 → dd = d) ∧
    (Retry.instant N R service).duration = 0 ∧
    totalSleep
      (Retry.request N inner msg (Retry.instant N R service).duration).2 =
      0 := by
  simp only [Retry.request]
  obtain ⟨h1, h2, h3⟩ := Retry.go_counts inner msg d N 0
  refine ⟨h3, by omega, ?_, ?_, ?_, rfl, ?_⟩
  · exact Retry.go_startsWithAttempt inner msg d N 0
  · exact Retry.go_endsWithAttempt inner msg d N 0
  · intro dd h
    exact Retry.go_sleep_dur inner msg d N 0 dd h
  · have := Retry.go_totalSleep inner msg (Retry.instant N R service).duration N 0
    simpa [Retry.instant] using this

/-- Witness for C10: `Retry<1>` around an always-failing service, with
inter-attempt duration 5: the sleep strictly between the two attempts has
duration 5, and the trace begins with an attempt. -/
theorem c10_retry_sleep_placement_witness :
    (5 : Nat) = 5 ∧
    startsWithAttempt
      (Retry.request 1 (fun _ (_ : Unit) =>
        (.error "e" : Except String Nat)) () 5).2 = true :=
  ⟨(c10_retry_sleep_placement 1
      (fun _ (_ : Unit) => (.error "e" : Except String Nat)) () 5
      (42 : Nat)).2.2.2.2.1 5 (List.Mem.tail _ (List.Mem.head _)),
   (c10_retry_sleep_placement 1
      (fun _ (_ : Unit) => (.error "e" : Except String Nat)) () 5
      (42 : Nat)).2.2.1⟩

/-! ## Restart: construction and one call, sequential view

`Restart` (src/restart.rs) stores `service: Mutex<S>`, `generator: G` and the
fixed generator message `g_r: GR`.  Here the struct carries the mutex content
directly (the lock discipline is treated separately as a transition system),
and a service's behaviour is a function from instance and request to outcome:
`beh inst msg` is what `inst.request(msg)` returns.  The generator is a
function from its message to either an error or a fresh instance. -/
structure Restart (S GR G : Type) where
  service : S
  generator : G
  g_r : GR

/-- What one `Restart::request`/`Restart::new` interaction did: the returned
result, the instance stored in the mutex afterwards, the argument of each
generator invocation, and each inner attempt (instance used, request passed). -/
structure RestartCall (S R ρ σε γε GR : Type) where
  result : Except (RestartError σε γε) ρ
  finalService : S
  generatorArgs : List GR
  attempts : List (S × R)

/-- `Restart::new` (src/restart.rs, lines 56-68): invoke the generator once
with (a clone of) `generator_msg`; propagate its error via `?`, otherwise
store the produced instance together with the generator and the message.  The
second component lists the generator invocations' arguments. -/
def Restart.new {S GR γε : Type} (generator : GR → Except γε S)
    (generator_msg : GR) :
    Except γε (Restart S GR (GR → Except γε S)) × List GR :=
  match generator generator_msg with
  | .error e => (.error e, [generator_msg])
  | .ok s =>
    (.ok { service := s, generator := generator, g_r := generator_msg },
      [generator_msg])

/-- `Restart::request` (src/restart.rs, lines 84-105), for the caller holding
the lock: call the current instance with `msg.clone()`; on success return the
response; on failure `e1` invoke the generator with `g_r.clone()` — if it
fails with `e2`, return `RestartingFailed(e2, e1)` (instance unchanged; the
`?` operator returns before the `mem::replace`); if it yields `new_service`,
replace the stored instance and retry `msg` once against it, the retry's
outcome being final (success as-is, failure as `ServiceError`). -/
def Restart.request {S R ρ σε γε GR : Type} (beh : S → R → Except σε ρ)
    (generator : GR → Except γε S) (g_r : GR) (service : S) (msg : R) :
    RestartCall S R ρ σε γε GR :=
  match beh service msg with
  | .ok v =>
    { result := .ok v
      finalService := service
      generatorArgs := []
      attempts := [(service, msg)] }
  | .error e1 =>
    match generator g_r with
    | .error e2 =>
      { result := .error (.RestartingFailed e2 e1)
        finalService := service
        generatorArgs := [g_r]
        attempts := [(service, msg)] }
    | .ok new_service =>
      match beh new_service msg with
      | .ok v =>
        { result := .ok v
          finalService := new_service
          generatorArgs := [g_r]
          attempts := [(service, msg), (new_service, msg)] }
      | .error e =>
        { result := .error (.ServiceError e)
          finalService := new_service
          generatorArgs := [g_r]
          attempts := [(service, msg), (new_service, msg)] }

/-- C3. When the first inner attempt of `Restart::request` fails with `e1`,
the generator is invoked exactly once (with the stored message); if the
generator fails with `e2` the call returns `RestartingFailed(e2, e1)` and the
instance is unchanged; if it succeeds the stored instance becomes the new one
and the request is retried exactly once against it, whose outcome is final:
success as-is, failure `e` as `ServiceError e`, with no second regeneration. -/
theorem c3_restart_request_spec {S R ρ σε γε GR : Type}
    (beh : S → R → Except σε ρ) (generator : GR → Except γε S) (g_r : GR)
    (service : S) (msg : R) (e1 : σε)
    (hfirst : beh service msg = .error e1) :
    (Restart.request beh generator g_r service msg).generatorArgs = [g_r] ∧
    (∀ e2, generator g_r = .error e2 →
      (Restart.request beh generator g_r service msg).result =
        .error (.RestartingFailed e2 e1) ∧
      (Restart.request beh generator g_r service msg).finalService =
        service) ∧
    (∀ s', generator g_r = .ok s' →
      (Restart.request beh generator g_r service msg).finalService = s' ∧
      (Restart.request beh generator g_r service msg).attempts =
        [(service, msg), (s', msg)] ∧
      (∀ v, beh s' msg = .ok v →
        (Restart.request beh generator g_r service msg).result = .ok v) ∧
      (∀ e, beh s' msg = .error e →
        (Restart.request beh generator g_r service msg).result =
          .error (.ServiceError e))) := by
  refine ⟨?_, ?_, ?_⟩
  · cases hgen : generator g_r with
    | error e2 => simp [Restart.request, hfirst, hgen]
    | ok s' =>
      cases hretry : beh s' msg with
      | ok v => simp [Restart.request, hfirst, hgen, hretry]
      | error e => simp [Restart.request, hfirst, hgen, hretry]
  · intro e2 hgen
    simp [Restart.request, hfirst, hgen]
  · intro s' hgen
    cases hretry : beh s' msg with
    | ok v => simp [Restart.request, hfirst, hgen, hretry]
    | error e => simp [Restart.request, hfirst, hgen, hretry]

/-- Witness for C3: instance 1 fails, the generator produces instance 2, the
retry against instance 2 succeeds; exactly one generator invocation. -/
theorem c3_restart_request_spec_witness :
    (Restart.request
        (fun s (_ : Unit) => if s ≥ 2 then (.ok s : Except String Nat)
          else .error "bad")
        (fun (_ : Unit) => (.ok 2 : Except String Nat)) () 1 ()).generatorArgs =
      [()] ∧
    (Restart.request
        (fun s (_ : Unit) => if s ≥ 2 then (.ok s : Except String Nat)
          else .error "bad")
        (fun (_ : Unit) => (.ok 2 : Except String Nat)) () 1 ()).result =
      .ok 2 := by
  have h := c3_restart_request_spec
    (fun s (_ : Unit) => if s ≥ 2 then (.ok s : Except String Nat)
      else .error "bad")
    (fun (_ : Unit) => (.ok 2 : Except String Nat)) () 1 () "bad" rfl
  exact ⟨h.1, ((h.2.2 2 rfl).2.2.1 2 rfl)⟩

/-- C8. `Restart::new` invokes the generator exactly once with (a clone of)
the fixed generator message; if this single invocation fails, construction
fails with the generator's error unchanged (no retry); if it succeeds, the
returned service becomes the initial stored instance and the message is
retained for later regenerations. -/
theorem c8_restart_new_spec {S GR γε : Type} (generator : GR → Except γε S)
    (generator_msg : GR) :
    (Restart.new generator generator_msg).2 = [generator_msg] ∧
    (∀ e, generator generator_msg = .error e →
      (Restart.new generator generator_msg).1 = .error e) ∧
    (∀ s, generator generator_msg = .ok s →
      (Restart.new generator generator_msg).1 =
        .ok { service := s, generator := generator, g_r := generator_msg }) := by
  refine ⟨?_, ?_, ?_⟩
  · cases hgen : generator generator_msg with
    | error e => simp [Restart.new, hgen]
    | ok s => simp [Restart.new, hgen]
  · intro e hgen
    simp [Restart.new, hgen]
  · intro s hgen
    simp [Restart.new, hgen]

/-- Witness for C8, mirroring the source's own test generator (fails for
messages ≤ 1, succeeds otherwise): construction at 1 fails with the
generator's error, construction at 2 invokes the generator once. -/
theorem c8_restart_new_spec_witness :
    (Restart.new
        (fun m => if m > 1 then (.ok m : Except String Nat) else .error "no")
        1).1 = .error "no" ∧
    (Restart.new
        (fun m => if m > 1 then (.ok m : Except String Nat) else .error "no")
        2).2 = [2] :=
  ⟨(c8_restart_new_spec
      (fun m => if m > 1 then (.ok m : Except String Nat) else .error "no")
      1).2.1 "no" rfl,
   (c8_restart_new_spec
      (fun m => if m > 1 then (.ok m : Except String Nat) else .error "no")
      2).1⟩

/-! ## RateLimit: concurrent callers

The in-flight counter is an `AtomicUsize`; its only mutations in
src/rate_limit.rs are the compare-and-increment of `fetch_update` (line 41)
and the `fetch_sub(1)` after the inner call (line 55), both atomic.  A system
state is the counter value plus a multiset with one phase token per caller:
`start` (about to run `fetch_update`), `inflight` (admitted, inner call
pending), `finished` (decrement done), `rejected` (got `RateLimited`), and —
for the cancellation analysis — `cancelled` (the caller's future was dropped
at the `await` of the inner call, so the code after it never runs). -/
inductive CallerPhase where
  | start
  | inflight
  | finished
  | rejected
  | cancelled
deriving DecidableEq

/-- A RateLimit system state: the `AtomicUsize` value and the callers'
phases. -/
structure RLState where
  counter : Nat
  phases : Multiset CallerPhase
deriving DecidableEq

/-- Atomic steps of `RateLimit::request` with `LIMIT` as in the source, for
callers that run to completion: `admitted` is a successful `fetch_update`
(possible only when the value read is `< LIMIT`), `reject` a failed one
(value `≥ LIMIT`), `complete` the unconditional `fetch_sub(1)` after the inner
call returns — whatever the inner outcome was. -/
inductive RLStep (LIMIT : Nat) : RLState → RLState → Prop where
  | admitted (c : Nat) (ph : Multiset CallerPhase)
      (hmem : CallerPhase.start ∈ ph) (hc : c < LIMIT) :
      RLStep LIMIT ⟨c, ph⟩
        ⟨c + 1, CallerPhase.inflight ::ₘ ph.erase CallerPhase.start⟩
  | reject (c : Nat) (ph : Multiset CallerPhase)
      (hmem : CallerPhase.start ∈ ph) (hc : LIMIT ≤ c) :
      RLStep LIMIT ⟨c, ph⟩
        ⟨c, CallerPhase.rejected ::ₘ ph.erase CallerPhase.start⟩
  | complete (c : Nat) (ph : Multiset CallerPhase)
      (hmem : CallerPhase.inflight ∈ ph) :
      RLStep LIMIT ⟨c, ph⟩
        ⟨c - 1, CallerPhase.finished ::ₘ ph.erase CallerPhase.inflight⟩

/-- Initial RateLimit state: `AtomicUsize::new(0)` and `n` callers about to
call `request`. -/
def RLInit (n : Nat) : RLState :=
  ⟨0, Multiset.replicate n CallerPhase.start⟩

/-- Reachability of the RateLimit system under interleaving of the atomic
steps. -/
def RLReachable (LIMIT n : Nat) (s : RLState) : Prop :=
  Relation.ReflTransGen (RLStep LIMIT) (RLInit n) s

/-- The RateLimit invariant is preserved by every atomic step: the counter
equals the number of in-flight (admitted, not yet decremented) callers and
never exceeds `LIMIT`. -/
theorem RLStep.preserves_invariant {LIMIT : Nat} {s t : RLState}
    (hinv : s.counter = s.phases.count CallerPhase.inflight ∧
      s.counter ≤ LIMIT)
    (hstep : RLStep LIMIT s t) :
    t.counter = t.phases.count CallerPhase.inflight ∧ t.counter ≤ LIMIT := by
  obtain ⟨hcount, hle⟩ := hinv
  cases hstep with
  | admitted c ph hmem hc =>
    simp only at hcount hle
    constructor
    · show c + 1 = Multiset.count CallerPhase.inflight
        (CallerPhase.inflight ::ₘ ph.erase CallerPhase.start)
      rw [Multiset.count_cons_self,
        Multiset.count_erase_of_ne (by decide)]
      omega
    · show c + 1 ≤ LIMIT
      omega
  | reject c ph hmem hc =>
    simp only at hcount hle
    constructor
    · show c = Multiset.count CallerPhase.inflight
        (CallerPhase.rejected ::ₘ ph.erase CallerPhase.start)
      rw [Multiset.count_cons_of_ne (by decide),
        Multiset.count_erase_of_ne (by decide)]
      exact hcount
    · exact hle
  | complete c ph hmem =>
    simp only at hcount hle
    have hpos : 0 < ph.count CallerPhase.inflight :=
      Multiset.count_pos.mpr hmem
    constructor
    · show c - 1 = Multiset.count CallerPhase.inflight
        (CallerPhase.finished ::ₘ ph.erase CallerPhase.inflight)
      rw [Multiset.count_cons_of_ne (by decide), Multiset.count_erase_self]
      omega
    · show c - 1 ≤ LIMIT
      omega

/-- C1. For every `RateLimit` with limit `LIMIT`, any number `n` of concurrent
callers and any interleaving of the atomic steps: at every observable instant
the counter equals the number of callers that were admitted and have not yet
run their decrement — so it is incremented only on admission and decremented
exactly once per admitted call whatever the call's outcome — and both the
counter and the number of simultaneously admitted calls stay in
`[0, LIMIT]`. -/
theorem c1_rate_limit_counter_invariant (LIMIT n : Nat) (s : RLState)
    (hreach : RLReachable LIMIT n s) :
    s.counter = s.phases.count CallerPhase.inflight ∧
    s.counter ≤ LIMIT ∧
    s.phases.count CallerPhase.inflight ≤ LIMIT := by
  have hmain : s.counter = s.phases.count CallerPhase.inflight ∧
      s.counter ≤ LIMIT := by
    induction hreach with
    | refl =>
      constructor
      · simp [RLInit, Multiset.count_replicate]
      · exact Nat.zero_le _
    | tail hprefix hstep ih =>
      exact RLStep.preserves_invariant ih hstep
  exact ⟨hmain.1, hmain.2, hmain.1 ▸ hmain.2⟩

/-- Witness for C1: with `LIMIT = 1` and two callers, the state after one
admission is reachable and satisfies the invariant. -/
theorem c1_rate_limit_counter_invariant_witness :
    (RLState.mk 1 (CallerPhase.inflight ::ₘ
        (Multiset.replicate 2 CallerPhase.start).erase CallerPhase.start)).counter =
      (RLState.mk 1 (CallerPhase.inflight ::ₘ
        (Multiset.replicate 2 CallerPhase.start).erase CallerPhase.start)).phases.count
        CallerPhase.inflight ∧
    (RLState.mk 1 (CallerPhase.inflight ::ₘ
        (Multiset.replicate 2 CallerPhase.start).erase CallerPhase.start)).counter ≤ 1 ∧
    (RLState.mk 1 (CallerPhase.inflight ::ₘ
        (Multiset.replicate 2 CallerPhase.start).erase CallerPhase.start)).phases.count
        CallerPhase.inflight ≤ 1 :=
  c1_rate_limit_counter_invariant 1 2 _
    (Relation.ReflTransGen.single
      (RLStep.admitted 0 (Multiset.replicate 2 CallerPhase.start)
        (by decide) (by decide)))

/-- Atomic steps of `RateLimit::request` when callers may also be cancelled.
In src/rate_limit.rs the decrement (`fetch_sub(1)`, line 55) is plain
straight-line code placed after `self.inner.request(msg.clone()).await`
(line 53), with no drop guard: if the caller's future is dropped at that
await point (e.g. its task is cancelled), the code after the await never
runs.  `cancel` embeds exactly that: an admitted caller disappears and the
counter is left as it was. -/
inductive RLStepC (LIMIT : Nat) : RLState → RLState → Prop where
  | admitted (c : Nat) (ph : Multiset CallerPhase)
      (hmem : CallerPhase.start ∈ ph) (hc : c < LIMIT) :
      RLStepC LIMIT ⟨c, ph⟩
        ⟨c + 1, CallerPhase.inflight ::ₘ ph.erase CallerPhase.start⟩
  | reject (c : Nat) (ph : Multiset CallerPhase)
      (hmem : CallerPhase.start ∈ ph) (hc : LIMIT ≤ c) :
      RLStepC LIMIT ⟨c, ph⟩
        ⟨c, CallerPhase.rejected ::ₘ ph.erase CallerPhase.start⟩
  | complete (c : Nat) (ph : Multiset CallerPhase)
      (hmem : CallerPhase.inflight ∈ ph) :
      RLStepC LIMIT ⟨c, ph⟩
        ⟨c - 1, CallerPhase.finished ::ₘ ph.erase CallerPhase.inflight⟩
  | cancel (c : Nat) (ph : Multiset CallerPhase)
      (hmem : CallerPhase.inflight ∈ ph) :
      RLStepC LIMIT ⟨c, ph⟩
        ⟨c, CallerPhase.cancelled ::ₘ ph.erase CallerPhase.inflight⟩

/-- C7 (failing execution). With `LIMIT = 1` and two callers, the execution
"caller A admitted, caller A cancelled at the await, caller B calls" is
reachable and ends in a state where no call is in flight or pending, yet the
counter is still 1 — the admitted slot was leaked by the cancellation, and
caller B was rejected even though nothing was running.  With `LIMIT = 1` no
later `admitted` is ever enabled (it needs counter `< 1`) and no `complete` can
lower the counter (it needs an in-flight caller), so the slot is lost for
good, contradicting the claim that an abandoned `RateLimit` call still
releases its counter increment. -/
theorem c7_rate_limit_cancellation_leak :
    Relation.ReflTransGen (RLStepC 1) (RLInit 2)
      (RLState.mk 1 {CallerPhase.rejected, CallerPhase.cancelled}) ∧
    (RLState.mk 1
        {CallerPhase.rejected, CallerPhase.cancelled}).counter = 1 ∧
    Multiset.count CallerPhase.inflight
      ({CallerPhase.rejected, CallerPhase.cancelled} :
        Multiset CallerPhase) = 0 ∧
    Multiset.count CallerPhase.start
      ({CallerPhase.rejected, CallerPhase.cancelled} :
        Multiset CallerPhase) = 0 ∧
    Multiset.count CallerPhase.cancelled
      ({CallerPhase.rejected, CallerPhase.cancelled} :
        Multiset CallerPhase) = 1 := by
  refine ⟨?_, rfl, by decide, by decide, by decide⟩
  have h1 : RLStepC 1 (RLInit 2)
      (RLState.mk 1 {CallerPhase.inflight, CallerPhase.start}) := by
    have e1 : RLState.mk (0 + 1) (CallerPhase.inflight ::ₘ
        (Multiset.replicate 2 CallerPhase.start).erase CallerPhase.start) =
        RLState.mk 1 {CallerPhase.inflight, CallerPhase.start} := by decide
    exact e1 ▸ RLStepC.admitted 0 (Multiset.replicate 2 CallerPhase.start)
      (by decide) (by decide)
  have h2 : RLStepC 1 (RLState.mk 1 {CallerPhase.inflight, CallerPhase.start})
      (RLState.mk 1 {CallerPhase.cancelled, CallerPhase.start}) := by
    have e2 : RLState.mk 1 (CallerPhase.cancelled ::ₘ
        ({CallerPhase.inflight, CallerPhase.start} :
          Multiset CallerPhase).erase CallerPhase.inflight) =
        RLState.mk 1 {CallerPhase.cancelled, CallerPhase.start} := by decide
    exact e2 ▸ RLStepC.cancel 1 {CallerPhase.inflight, CallerPhase.start}
      (by decide)
  have h3 : RLStepC 1 (RLState.mk 1 {CallerPhase.cancelled, CallerPhase.start})
      (RLState.mk 1 {CallerPhase.rejected, CallerPhase.cancelled}) := by
    have e3 : RLState.mk 1 (CallerPhase.rejected ::ₘ
        ({CallerPhase.cancelled, CallerPhase.start} :
          Multiset CallerPhase).erase CallerPhase.start) =
        RLState.mk 1 {CallerPhase.rejected, CallerPhase.cancelled} := by decide
    exact e3 ▸ RLStepC.reject 1 {CallerPhase.cancelled, CallerPhase.start}
      (by decide) (by decide)
  exact Relation.ReflTransGen.head h1
    (Relation.ReflTransGen.head h2 (Relation.ReflTransGen.single h3))

/-! ## Restart: serialization of concurrent callers

`Restart::request` (src/restart.rs, lines 84-105) begins with
`let mut lock = self.service.lock().await;` and holds the `tokio::sync::Mutex`
guard for the whole body — first attempt, possible regeneration and instance
replacement, and retry — releasing it only when the guard is dropped at
return.  A caller's position inside that body is one of `attempting` (first
`lock.request`), `regenerating` (generator call after a failure) or
`retrying` (second `lock.request` after the replacement); `idle` is before
the lock is acquired and `done` after the guard is dropped. -/
inductive RestartPhase where
  | idle
  | attempting
  | regenerating
  | retrying
  | done
deriving DecidableEq

/-- Whether a phase lies inside the lock-holding body of
`Restart::request`. -/
def RestartPhase.inCritical : RestartPhase → Bool
  | .attempting => true
  | .regenerating => true
  | .retrying => true
  | _ => false

/-- State of one `Restart` instance shared by any number of callers: who (if
anyone) holds the mutex, and each caller's phase. -/
structure RestartSystem where
  holder : Option Nat
  phase : Nat → RestartPhase

/-- Atomic steps of concurrent `Restart::request` calls.  `acquire` is
`self.service.lock().await` completing (only when no one holds the mutex);
the inner steps follow the body of `request`: the first attempt either
succeeds (guard dropped at return) or fails (move on to the generator); the
generator either fails (`?` returns, guard dropped) or succeeds (instance
replaced, retry); the retry returns either way (guard dropped). -/
inductive RestartStep : RestartSystem → RestartSystem → Prop where
  | acquire (ph : Nat → RestartPhase) (i : Nat) (h : ph i = .idle) :
      RestartStep ⟨none, ph⟩ ⟨some i, Function.update ph i .attempting⟩
  | attempt_ok (hold : Option Nat) (ph : Nat → RestartPhase) (i : Nat)
      (h : ph i = .attempting) :
      RestartStep ⟨hold, ph⟩ ⟨none, Function.update ph i .done⟩
  | attempt_fail (hold : Option Nat) (ph : Nat → RestartPhase) (i : Nat)
      (h : ph i = .attempting) :
      RestartStep ⟨hold, ph⟩ ⟨hold, Function.update ph i .regenerating⟩
  | regen_fail (hold : Option Nat) (ph : Nat → RestartPhase) (i : Nat)
      (h : ph i = .regenerating) :
      RestartStep ⟨hold, ph⟩ ⟨none, Function.update ph i .done⟩
  | regen_ok (hold : Option Nat) (ph : Nat → RestartPhase) (i : Nat)
      (h : ph i = .regenerating) :
      RestartStep ⟨hold, ph⟩ ⟨hold, Function.update ph i .retrying⟩
  | retry_done (hold : Option Nat) (ph : Nat → RestartPhase) (i : Nat)
      (h : ph i = .retrying) :
      RestartStep ⟨hold, ph⟩ ⟨none, Function.update ph i .done⟩

/-- Initial Restart system state: mutex free, every caller outside. -/
def RestartInit : RestartSystem :=
  ⟨none, fun _ => .idle⟩

/-- Reachability of the Restart system under interleaving. -/
def RestartReachable (s : RestartSystem) : Prop :=
  Relation.ReflTransGen RestartStep RestartInit s

/-- The lock invariant of `Restart`: every caller inside the lock-holding
body is the mutex holder.  Preserved by every step. -/
theorem RestartStep.preserves_lock_invariant {s t : RestartSystem}
    (hinv : ∀ i, (s.phase i).inCritical = true → s.holder = some i)
    (hstep : RestartStep s t) :
    ∀ i, (t.phase i).inCritical = true → t.holder = some i := by
  cases hstep with
  | acquire ph i h =>
    intro j hj
    simp only at hj hinv ⊢
    by_cases hij : j = i
    · subst hij
      rfl
    · rw [Function.update_noteq hij] at hj
      exact absurd (hinv j hj) (by simp)
  | attempt_ok hold ph i h =>
    intro j hj
    simp only at hj hinv ⊢
    by_cases hij : j = i
    · subst hij
      rw [Function.update_same] at hj
      exact absurd hj (by simp [RestartPhase.inCritical])
    · rw [Function.update_noteq hij] at hj
      have hji := hinv j hj
      have hii := hinv i (by simp [h, RestartPhase.inCritical])
      rw [hii] at hji
      exact absurd (Option.some.inj hji) fun hc => hij hc.symm
  | attempt_fail hold ph i h =>
    intro j hj
    simp only at hj hinv ⊢
    by_cases hij : j = i
    · subst hij
      exact hinv j (by simp [h, RestartPhase.inCritical])
    · rw [Function.update_noteq hij] at hj
      exact hinv j hj
  | regen_fail hold ph i h =>
    intro j hj
    simp only at hj hinv ⊢
    by_cases hij : j = i
    · subst hij
      rw [Function.update_same] at hj
      exact absurd hj (by simp [RestartPhase.inCritical])
    · rw [Function.update_noteq hij] at hj
      have hji := hinv j hj
      have hii := hinv i (by simp [h, RestartPhase.inCritical])
      rw [hii] at hji
      exact absurd (Option.some.inj hji) fun hc => hij hc.symm
  | regen_ok hold ph i h =>
    intro j hj
    simp only at hj hinv ⊢
    by_cases hij : j = i
    · subst hij
      exact hinv j (by simp [h, RestartPhase.inCritical])
    · rw [Function.update_noteq hij] at hj
      exact hinv j hj
  | retry_done hold ph i h =>
    intro j hj
    simp only at hj hinv ⊢
    by_cases hij : j = i
    · subst hij
      rw [Function.update_same] at hj
      exact absurd hj (by simp [RestartPhase.inCritical])
    · rw [Function.update_noteq hij] at hj
      have hji := hinv j hj
      have hii := hinv i (by simp [h, RestartPhase.inCritical])
      rw [hii] at hji
      exact absurd (Option.some.inj hji) fun hc => hij hc.symm

/-- C6. All requests through one `Restart` instance are fully serialized: in
every reachable state, every caller inside its request + possible-regeneration
+ retry sequence holds the mutex — acquired before the first inner attempt and
held across the whole sequence — so no two callers are ever inside their
sequences at the same time. -/
theorem c6_restart_serialization (s : RestartSystem)
    (hreach : RestartReachable s) :
    (∀ i, (s.phase i).inCritical = true → s.holder = some i) ∧
    (∀ i j, (s.phase i).inCritical = true → (s.phase j).inCritical = true →
      i = j) := by
  have hinv : ∀ i, (s.phase i).inCritical = true → s.holder = some i := by
    induction hreach with
    | refl =>
      intro i hi
      simp [RestartInit, RestartPhase.inCritical] at hi
    | tail hprefix hstep ih =>
      exact RestartStep.preserves_lock_invariant ih hstep
  refine ⟨hinv, ?_⟩
  intro i j hi hj
  have h1 := hinv i hi
  have h2 := hinv j hj
  rw [h1] at h2
  exact Option.some.inj h2

/-- Witness for C6: after caller 0 acquires the mutex and is attempting, it is
the holder. -/
theorem c6_restart_serialization_witness :
    (RestartSystem.mk (some 0)
        (Function.update (fun _ => RestartPhase.idle) 0
          RestartPhase.attempting)).holder = some 0 :=
  (c6_restart_serialization _
      (Relation.ReflTransGen.single
        (RestartStep.acquire (fun _ => RestartPhase.idle) 0 rfl))).1 0
    (by simp [RestartPhase.inCritical])

/-! ## The Middleware contract

`Middleware<R, S>` (src/lib.rs, lines 15-17) requires `Service<R>` plus
`fn inner_service(&self) -> &S`, a shared (read-only) reference to the wrapped
service.  The source contains an `impl Middleware` block for `RateLimit`
(src/rate_limit.rs, line 61), `Timeout` (src/timeout.rs, line 45) and `Retry`
(src/retry.rs, lines 67-72).  `Restart` implements only `Service`
(src/restart.rs, lines 71-106): restart.rs contains no `impl Middleware`
block (and src/lib.rs declares no `restart` module at all). -/

/-- The `RateLimit` struct (src/rate_limit.rs, lines 10-14): inner service
and the `AtomicUsize` in-flight counter; `R` is the phantom request type. -/
structure RateLimit (LIMIT : Nat) (R : Type) (S : Type) where
  inner : S
  current : Nat

/-- `RateLimit::new` (src/rate_limit.rs, lines 26-33): wraps the service with
the counter at 0. -/
def RateLimit.new (LIMIT : Nat) (R : Type) {S : Type} (service : S) :
    RateLimit LIMIT R S :=
  { inner := service, current := 0 }

/-- `RateLimit`'s `Middleware::inner_service` (src/rate_limit.rs,
lines 61-65). -/
def RateLimit.inner_service {LIMIT : Nat} {R S : Type}
    (m : RateLimit LIMIT R S) : S :=
  m.inner

/-- The `Timeout` struct (src/timeout.rs, lines 10-14): inner service and the
configured duration. -/
structure Timeout (R : Type) (S : Type) where
  inner : S
  timeout_duration : Nat

/-- `Timeout::new` (src/timeout.rs, lines 24-31). -/
def Timeout.new (R : Type) {S : Type} (service : S) (timeout_duration : Nat) :
    Timeout R S :=
  { inner := service, timeout_duration := timeout_duration }

/-- `Timeout`'s `Middleware::inner_service` (src/timeout.rs, lines 45-49). -/
def Timeout.inner_service {R S : Type} (m : Timeout R S) : S :=
  m.inner

/-- `Retry`'s `Middleware::inner_service` (src/retry.rs, lines 67-72). -/
def Retry.inner_service {RETRY_COUNT : Nat} {R S : Type}
    (m : Retry RETRY_COUNT R S) : S :=
  m.inner

/-- The four middleware types of the library. -/
inductive MiddlewareName where
  | RateLimit
  | Timeout
  | Retry
  | Restart
deriving DecidableEq

/-- Which of the four types the source gives an `impl Middleware` block:
`RateLimit` (src/rate_limit.rs, line 61), `Timeout` (src/timeout.rs,
line 45) and `Retry` (src/retry.rs, lines 67-72) each have one;
src/restart.rs contains none — `Restart` implements only `Service`. -/
def implementsMiddleware : MiddlewareName → Bool
  | .RateLimit => true
  | .Timeout => true
  | .Retry => true
  | .Restart => false

/-- C9 fails at `Restart`: the source has no `impl Middleware for Restart`
(and no `inner_service` on it), so not each of the four middlewares satisfies
the Middleware contract. -/
theorem c9_counterexample_restart_not_middleware :
    implementsMiddleware MiddlewareName.Restart = false :=
  rfl

/-- C9 (amended). `RateLimit`, `Timeout` and `Retry` satisfy the Middleware
contract — each implements `Service` and exposes, via `inner_service`, a
read-only reference to the exact inner service it was constructed around —
while `Restart` implements `Service` only and exposes no `inner_service`. -/
theorem c9_middleware_contract (S : Type) (service : S) (LIMIT N d : Nat)
    (R : Type) :
    implementsMiddleware MiddlewareName.RateLimit = true ∧
    implementsMiddleware MiddlewareName.Timeout = true ∧
    implementsMiddleware MiddlewareName.Retry = true ∧
    implementsMiddleware MiddlewareName.Restart = false ∧
    (RateLimit.new LIMIT R service).inner_service = service ∧
    (Timeout.new R service d).inner_service = service ∧
    (Retry.instant N R service).inner_service = service ∧
    (Retry.with_wait N R service d).inner_service = service :=
  ⟨rfl, rfl, rfl, rfl, rfl, rfl, rfl, rfl⟩
